import Mathlib

/-!
Shallow embedding of the CHIP-8 emulator core of this repository
(primary implementation: `emulate_instruction`, `update_timers`,
`init_chip8`, `save_state` / `load_state`).

Machine integers are modelled as `Nat` with explicit wrapping
(`% 256` for `uint8_t` stores, `% 65536` for `uint16_t` stores).
Fixed-size C arrays are modelled as total functions out of `Nat`;
only the indices that exist in the C array are meaningful.
The C expression `(hi << 8) | lo` on byte values is modelled as
`hi * 256 + lo`, which agrees with it whenever `lo < 256`.
-/

namespace Chip8

/-- Truncation to an unsigned 8-bit value (a `uint8_t` store). -/
def u8 (n : Nat) : Nat := n % 256

/-- Truncation to an unsigned 16-bit value (a `uint16_t` store). -/
def u16 (n : Nat) : Nat := n % 65536

/-- Point update of a `Nat`-valued array modelled as a function. -/
def updN (f : Nat → Nat) (i v : Nat) : Nat → Nat := fun j => if j = i then v else f j

/-- Point update of a `Bool`-valued array modelled as a function. -/
def updB (f : Nat → Bool) (i : Nat) (v : Bool) : Nat → Bool := fun j => if j = i then v else f j

/-- The `Chip8Extension` enum of the source. -/
inductive Chip8Extension
  | CHIP8
  | SUPERCHIP
  | XOCHIP
deriving DecidableEq

/-- The source's `const Chip8Extension CURRENT_EXTENSION = CHIP8;`.
The executor below is parametrised by the mode so that both branches of
each mode check can be verified. -/
def CURRENT_EXTENSION : Chip8Extension := .CHIP8

/-- The `Chip8State` struct of the source, restricted to the fields the
executor reads or writes.  (`pixel_color`, `rom_name` and the pause/quit
`state` field are presentation-only: no opcode touches them.)
The C `stack_ptr` pointer is modelled as the index `sp` into `stack`. -/
structure Chip8State where
  ram : Nat → Nat
  display : Nat → Bool
  stack : Nat → Nat
  sp : Nat
  V : Nat → Nat
  I : Nat
  PC : Nat
  delay_timer : Nat
  sound_timer : Nat
  keypad : Nat → Bool
  draw : Bool

/-- The two C `static` locals of the `FX0A` case of `emulate_instruction`
(`static bool any_key_pressed; static uint8_t key;`).  They live outside
the `Chip8State` struct and persist across calls. -/
structure WaitState where
  any_key_pressed : Bool
  key : Nat
deriving DecidableEq

/-- Decode field `opcode & 0x0FFF`. -/
def opNNN (op : Nat) : Nat := op % 4096

/-- Decode field `opcode & 0xFF`. -/
def opNN (op : Nat) : Nat := op % 256

/-- Decode field `opcode & 0xF`. -/
def opN (op : Nat) : Nat := op % 16

/-- Decode field `(opcode >> 8) & 0xF`. -/
def opX (op : Nat) : Nat := op / 256 % 16

/-- Decode field `(opcode >> 4) & 0xF`. -/
def opY (op : Nat) : Nat := op / 16 % 16

/-- Decode field `(opcode >> 12) & 0x0F`: the instruction class used by the switch. -/
def opCls (op : Nat) : Nat := op / 4096 % 16

/-- The 80-byte font table copied to the base of ram by `init_chip8`. -/
def font : List Nat :=
  [0xF0, 0x90, 0x90, 0x90, 0xF0, 0x20, 0x60, 0x20, 0x20, 0x70,
   0xF0, 0x10, 0xF0, 0x80, 0xF0, 0xF0, 0x10, 0xF0, 0x10, 0xF0,
   0x90, 0x90, 0xF0, 0x10, 0x10, 0xF0, 0x80, 0xF0, 0x10, 0xF0,
   0xF0, 0x80, 0xF0, 0x90, 0xF0, 0xF0, 0x10, 0x20, 0x40, 0x40,
   0xF0, 0x90, 0xF0, 0x90, 0xF0, 0xF0, 0x90, 0xF0, 0x10, 0xF0,
   0xF0, 0x90, 0xF0, 0x90, 0x90, 0xE0, 0x90, 0xE0, 0x90, 0xE0,
   0xF0, 0x80, 0x80, 0x80, 0xF0, 0xE0, 0x90, 0x90, 0x90, 0xE0,
   0xF0, 0x80, 0xF0, 0x80, 0xF0, 0xF0, 0x80, 0xF0, 0x80, 0x80]

/-- The source's `init_chip8`: zero the whole struct, copy the font to ram[0..80),
copy the rom to ram[0x200..), set the entry point and the stack pointer.
(The file-handling of the C function is caller-side I/O; the rom is
received here as the byte list that was read.) -/
def init_chip8 (rom : List Nat) : Chip8State :=
  { ram := fun i =>
      if i < 80 then font.getD i 0
      else if 512 ≤ i ∧ i < 512 + rom.length then rom.getD (i - 512) 0
      else 0
    display := fun _ => false
    stack := fun _ => 0
    sp := 0
    V := fun _ => 0
    I := 0
    PC := 512
    delay_timer := 0
    sound_timer := 0
    keypad := fun _ => false
    draw := false }

/-- Initial value of the `FX0A` statics: `any_key_pressed = false`,
`key = 0xFF`. -/
def waitReset : WaitState := ⟨false, 255⟩

/-- Branch `case 0x00` of the switch: `00E0` clear screen, `00EE` return,
anything else is a no-op. -/
def op_cls0 (c : Chip8State) (w : WaitState) (nn : Nat) : Chip8State × WaitState :=
  if nn = 0xE0 then ({ c with display := fun _ => false, draw := true }, w)
  else if nn = 0xEE then ({ c with PC := c.stack (c.sp - 1), sp := c.sp - 1 }, w)
  else (c, w)

/-- Branch `case 0x08` of the switch: the register-to-register ALU group,
including the mode checks on `CURRENT_EXTENSION` for sub-ops 1, 2, 3, 6
and E.  C stores `carry` as a `bool` and then assigns it to `V[0xF]`;
here the resulting 0/1 value is written directly.  `V[X] -= V[Y]` on
`uint8_t` is modelled as `u8 (V x + 256 - u8 (V y))`, which is the same
wrap-around subtraction for byte values. -/
def op_cls8 (ext : Chip8Extension) (c : Chip8State) (w : WaitState) (x y n : Nat) :
    Chip8State × WaitState :=
  if n = 0 then ({ c with V := updN c.V x (u8 (c.V y)) }, w)
  else if n = 1 then
    let c1 : Chip8State := { c with V := updN c.V x (u8 (Nat.lor (c.V x) (c.V y))) }
    (if ext = .CHIP8 then { c1 with V := updN c1.V 15 0 } else c1, w)
  else if n = 2 then
    let c1 : Chip8State := { c with V := updN c.V x (u8 (Nat.land (c.V x) (c.V y))) }
    (if ext = .CHIP8 then { c1 with V := updN c1.V 15 0 } else c1, w)
  else if n = 3 then
    let c1 : Chip8State := { c with V := updN c.V x (u8 (Nat.xor (c.V x) (c.V y))) }
    (if ext = .CHIP8 then { c1 with V := updN c1.V 15 0 } else c1, w)
  else if n = 4 then
    let carry := if 255 < u16 (c.V x + c.V y) then 1 else 0
    let c1 : Chip8State := { c with V := updN c.V x (u8 (c.V x + c.V y)) }
    ({ c1 with V := updN c1.V 15 carry }, w)
  else if n = 5 then
    let carry := if c.V y ≤ c.V x then 1 else 0
    let c1 : Chip8State := { c with V := updN c.V x (u8 (c.V x + 256 - u8 (c.V y))) }
    ({ c1 with V := updN c1.V 15 carry }, w)
  else if n = 6 then
    let carry := if ext = .CHIP8 then c.V y % 2 else c.V x % 2
    let c1 : Chip8State :=
      { c with V := updN c.V x (u8 ((if ext = .CHIP8 then c.V y else c.V x) / 2)) }
    ({ c1 with V := updN c1.V 15 carry }, w)
  else if n = 7 then
    let carry := if c.V x ≤ c.V y then 1 else 0
    let c1 : Chip8State := { c with V := updN c.V x (u8 (c.V y + 256 - u8 (c.V x))) }
    ({ c1 with V := updN c1.V 15 carry }, w)
  else if n = 14 then
    let carry := if ext = .CHIP8 then c.V y / 128 % 2 else c.V x / 128 % 2
    let c1 : Chip8State :=
      { c with V := updN c.V x (u8 ((if ext = .CHIP8 then c.V y else c.V x) * 2)) }
    ({ c1 with V := updN c1.V 15 carry }, w)
  else (c, w)

/-- The inner (bit) loop of the `DXYN` draw: `for (j = 7; j >= 0; j--)`,
with the early `break` once `++X_coord >= WINDOW_WIDTH`.  The first
argument is the remaining fuel `j + 1`, so the bit drawn at the current
column is bit `j` of the sprite byte (most significant first). -/
def drawRowAux (y sprite : Nat) : Nat → Nat → (Nat → Bool) → Nat → ((Nat → Bool) × Nat)
  | 0, _, disp, vf => (disp, vf)
  | f + 1, x, disp, vf =>
    let bit := Nat.testBit sprite f
    let pix := disp (y * 64 + x)
    let vf1 := if bit && pix then 1 else vf
    let disp1 := updB disp (y * 64 + x) (Bool.xor pix bit)
    if 64 ≤ x + 1 then (disp1, vf1) else drawRowAux y sprite f (x + 1) disp1 vf1

/-- The outer (row) loop of the `DXYN` draw: `for (i = 0; i < N; i++)`,
reading `ram[I + i]`, resetting the column to `orig_X` for each row, and
breaking once `++Y_coord >= WINDOW_HEIGHT`. -/
def drawAux (x0 : Nat) (ram : Nat → Nat) : Nat → Nat → Nat → (Nat → Bool) → Nat →
    ((Nat → Bool) × Nat)
  | 0, _, _, disp, vf => (disp, vf)
  | n + 1, y, addr, disp, vf =>
    let p := drawRowAux y (ram addr) 8 x0 disp vf
    if 32 ≤ y + 1 then p else drawAux x0 ram n (y + 1) (addr + 1) p.1 p.2

/-- Branch `case 0x0D` of the switch: the sprite draw.  The C code zeroes
`V[0xF]` before the loop and may set it to 1 inside; since the loop never
reads `V[0xF]`, the accumulated flag is written once at the end, which
yields the same final state. -/
def op_clsD (c : Chip8State) (w : WaitState) (x y n : Nat) : Chip8State × WaitState :=
  let x0 := c.V x % 64
  let y0 := c.V y % 32
  let p := drawAux x0 c.ram n y0 c.I c.display 0
  ({ c with display := p.1, V := updN c.V 15 p.2, draw := true }, w)

/-- Branch `case 0x0E` of the switch: `EX9E` / `EXA1` skip on key state.  Note
that the keypad is indexed with the raw value `V[X]`, unmasked. -/
def op_clsE (c : Chip8State) (w : WaitState) (x nn : Nat) : Chip8State × WaitState :=
  if nn = 0x9E then
    (if c.keypad (c.V x) then { c with PC := u16 (c.PC + 2) } else c, w)
  else if nn = 0xA1 then
    (if c.keypad (c.V x) then c else { c with PC := u16 (c.PC + 2) }, w)
  else (c, w)

/-- The scan loop of `FX0A`: `for (i = 0; key == 0xFF && i < 16; i++)`,
returning the first pressed key if any. -/
def findPressed (keypad : Nat → Bool) : Option Nat :=
  (List.range 16).find? fun i => keypad i

/-- The loop of `FX55`: `for (i = 0; i <= X; i++)` storing `V[i]`, with
the mode check; on original CHIP-8 `ram[I++] = V[i]` (so `I` moves), on
the extensions `ram[I + i] = V[i]` (so `I` is fixed).  The first `Nat`
argument is the number of iterations left, the second the running `i`. -/
def storeRegs (ext : Chip8Extension) (V : Nat → Nat) : Nat → Nat → (Nat → Nat) → Nat →
    ((Nat → Nat) × Nat)
  | 0, _, ram, ireg => (ram, ireg)
  | cnt + 1, i, ram, ireg =>
    if ext = .CHIP8 then
      storeRegs ext V cnt (i + 1) (updN ram ireg (u8 (V i))) (u16 (ireg + 1))
    else
      storeRegs ext V cnt (i + 1) (updN ram (ireg + i) (u8 (V i))) ireg

/-- The loop of `FX65`, the inverse of `FX55`, with the same mode
divergence on the index register. -/
def loadRegs (ext : Chip8Extension) (ram : Nat → Nat) : Nat → Nat → (Nat → Nat) → Nat →
    ((Nat → Nat) × Nat)
  | 0, _, V, ireg => (V, ireg)
  | cnt + 1, i, V, ireg =>
    if ext = .CHIP8 then
      loadRegs ext ram cnt (i + 1) (updN V i (u8 (ram ireg))) (u16 (ireg + 1))
    else
      loadRegs ext ram cnt (i + 1) (updN V i (u8 (ram (ireg + i)))) ireg

/-- Branch `case 0x0F` of the switch.  `FX0A` updates the two statics; every
other sub-op leaves them alone.  An unknown `NN` is a no-op. -/
def op_clsF (ext : Chip8Extension) (c : Chip8State) (w : WaitState) (x nn : Nat) :
    Chip8State × WaitState :=
  if nn = 0x0A then
    let key1 := if w.key = 255 then
        (match findPressed c.keypad with | some i => i | none => 255)
      else w.key
    let any1 := if w.key = 255 then
        (match findPressed c.keypad with | some _ => true | none => w.any_key_pressed)
      else w.any_key_pressed
    if any1 = false then ({ c with PC := u16 (c.PC + 65534) }, ⟨any1, key1⟩)
    else if c.keypad key1 then ({ c with PC := u16 (c.PC + 65534) }, ⟨any1, key1⟩)
    else ({ c with V := updN c.V x (u8 key1) }, waitReset)
  else if nn = 0x1E then ({ c with I := u16 (c.I + c.V x) }, w)
  else if nn = 0x07 then ({ c with V := updN c.V x (u8 c.delay_timer) }, w)
  else if nn = 0x15 then ({ c with delay_timer := u8 (c.V x) }, w)
  else if nn = 0x18 then ({ c with sound_timer := u8 (c.V x) }, w)
  else if nn = 0x29 then ({ c with I := u16 (c.V x * 5) }, w)
  else if nn = 0x33 then
    let b0 := u8 (c.V x)
    let ram1 := updN (updN (updN c.ram (c.I + 2) (b0 % 10)) (c.I + 1) (b0 / 10 % 10)) c.I (b0 / 10 / 10)
    ({ c with ram := ram1 }, w)
  else if nn = 0x55 then
    let p := storeRegs ext c.V (x + 1) 0 c.ram c.I
    ({ c with ram := p.1, I := p.2 }, w)
  else if nn = 0x65 then
    let p := loadRegs ext c.ram (x + 1) 0 c.V c.I
    ({ c with V := p.1, I := p.2 }, w)
  else (c, w)

/-- The switch of `emulate_instruction`, taken after the fetch and the
`PC += 2`; `rnd` is the value returned by `rand()` for opcode `CXNN`.
`PC -= 2` on `uint16_t` appears as `u16 (PC + 65534)`.  An opcode class
with no case (there is none: classes are 0..15) cannot arise; the final
branch is class 15. -/
def exec_opcode (ext : Chip8Extension) (rnd : Nat) (op : Nat) (c : Chip8State)
    (w : WaitState) : Chip8State × WaitState :=
  if opCls op = 0 then op_cls0 c w (opNN op)
  else if opCls op = 1 then ({ c with PC := opNNN op }, w)
  else if opCls op = 2 then
    ({ c with stack := updN c.stack c.sp c.PC, sp := c.sp + 1, PC := opNNN op }, w)
  else if opCls op = 3 then
    (if c.V (opX op) = opNN op then { c with PC := u16 (c.PC + 2) } else c, w)
  else if opCls op = 4 then
    (if c.V (opX op) = opNN op then c else { c with PC := u16 (c.PC + 2) }, w)
  else if opCls op = 5 then
    (if opN op = 0 then
        (if c.V (opX op) = c.V (opY op) then { c with PC := u16 (c.PC + 2) } else c)
      else c, w)
  else if opCls op = 6 then ({ c with V := updN c.V (opX op) (u8 (opNN op)) }, w)
  else if opCls op = 7 then
    ({ c with V := updN c.V (opX op) (u8 (c.V (opX op) + opNN op)) }, w)
  else if opCls op = 8 then op_cls8 ext c w (opX op) (opY op) (opN op)
  else if opCls op = 9 then
    (if c.V (opX op) = c.V (opY op) then c else { c with PC := u16 (c.PC + 2) }, w)
  else if opCls op = 10 then ({ c with I := opNNN op }, w)
  else if opCls op = 11 then ({ c with PC := u16 (c.V 0 + opNNN op) }, w)
  else if opCls op = 12 then
    ({ c with V := updN c.V (opX op) (u8 (Nat.land (rnd % 256) (opNN op))) }, w)
  else if opCls op = 13 then op_clsD c w (opX op) (opY op) (opN op)
  else if opCls op = 14 then op_clsE c w (opX op) (opNN op)
  else op_clsF ext c w (opX op) (opNN op)

/-- The source's `emulate_instruction`: fetch the big-endian word at `PC`, advance
`PC` by 2 (a `uint16_t` increment), and dispatch. -/
def emulate_instruction (ext : Chip8Extension) (rnd : Nat) (c : Chip8State)
    (w : WaitState) : Chip8State × WaitState :=
  exec_opcode ext rnd (c.ram c.PC * 256 + c.ram (c.PC + 1)) { c with PC := u16 (c.PC + 2) } w

/-- The source's `update_timers` (audio device control stripped; it reads, never
writes, the timers). -/
def update_timers (c : Chip8State) : Chip8State :=
  let c1 := if 0 < c.delay_timer then { c with delay_timer := c.delay_timer - 1 } else c
  if 0 < c1.sound_timer then { c1 with sound_timer := c1.sound_timer - 1 } else c1

/-- A `bool` written to the save file as a byte. -/
def boolToNat (b : Bool) : Nat := if b then 1 else 0

/-- A byte read back from the save file as a `bool` (nonzero is true). -/
def natToBool (n : Nat) : Bool := n != 0

/-- The source's `save_state`: an `fwrite` of the whole `Chip8State` struct, modelled as
the fixed-layout concatenation of its fields (ram, display, stack,
stack index, registers, `I`, `PC`, timers, keypad, draw flag).  The C
`static` locals of `FX0A` are not part of the struct and are not
written. -/
def save_state (c : Chip8State) : List Nat :=
  ((List.range 4096).map fun i => c.ram i) ++
  ((List.range 2048).map fun i => boolToNat (c.display i)) ++
  ((List.range 12).map fun i => c.stack i) ++
  [c.sp] ++
  ((List.range 16).map fun i => c.V i) ++
  [c.I, c.PC, c.delay_timer, c.sound_timer] ++
  ((List.range 16).map fun i => boolToNat (c.keypad i)) ++
  [boolToNat c.draw]

/-- Parse a saved blob back into a `Chip8State` (the `fread` of
`load_state`). -/
def parse_state (b : List Nat) : Chip8State :=
  { ram := fun i => if i < 4096 then b.getD i 0 else 0
    display := fun n => if n < 2048 then natToBool (b.getD (4096 + n) 0) else false
    stack := fun i => if i < 12 then b.getD (6144 + i) 0 else 0
    sp := b.getD 6156 0
    V := fun i => if i < 16 then b.getD (6157 + i) 0 else 0
    I := b.getD 6173 0
    PC := b.getD 6174 0
    delay_timer := b.getD 6175 0
    sound_timer := b.getD 6176 0
    keypad := fun i => if i < 16 then natToBool (b.getD (6177 + i) 0) else false
    draw := natToBool (b.getD 6193 0) }

/-- The source's `load_state` acting on the full machine: the `fread` replaces the
`Chip8State` struct, while the `FX0A` statics of the running process are
untouched. -/
def load_state (b : List Nat) (live : Chip8State × WaitState) : Chip8State × WaitState :=
  (parse_state b, live.2)

/-- Effect of `handle_input` on a key-down event for logical key `k`. -/
def pressKey (k : Nat) (c : Chip8State) : Chip8State :=
  { c with keypad := updB c.keypad k true }

/-- Effect of `handle_input` on a key-up event for logical key `k`. -/
def releaseKey (k : Nat) (c : Chip8State) : Chip8State :=
  { c with keypad := updB c.keypad k false }

/-- Iterated execution: `n` consecutive `emulate_instruction` calls
(mode CHIP8, the configured `CURRENT_EXTENSION`). -/
def stepN (rnd : Nat) : Nat → Chip8State × WaitState → Chip8State × WaitState
  | 0, s => s
  | n + 1, s => stepN rnd n (emulate_instruction CURRENT_EXTENSION rnd s.1 s.2)

/-- The two-byte program `[0xF0, 0x0A]`: `FX0A` with `X = 0`. -/
def awaitProg : Chip8State := init_chip8 [0xF0, 0x0A]

/-- The await program stepped once while key `k` is held: the `FX0A`
statics capture key `k` and the machine is paused mid-await. -/
def pressedStep (k : Nat) : Chip8State × WaitState :=
  emulate_instruction CURRENT_EXTENSION 0 (pressKey k awaitProg) waitReset

/-- The machine of `pressedStep k` stepped once more after key `k` has
been released. -/
def releasedStep (k : Nat) : Chip8State × WaitState :=
  emulate_instruction CURRENT_EXTENSION 0 (releaseKey k (pressedStep k).1) (pressedStep k).2

/-- A machine constructed on the two-byte rom `[0x1F, 0xFF]`, whose only
instruction is the jump `1FFF`. -/
def jumpTopProg : Chip8State := init_chip8 [0x1F, 0xFF]

/-- A freshly constructed machine with registers `Vi = a` and `Vj = b`,
used to instantiate register-file theorems at concrete inputs. -/
def regState (i a j b : Nat) : Chip8State :=
  { init_chip8 [] with V := updN (updN (fun _ => 0) i a) j b }

/-- A freshly constructed machine with `V0 = 200` and (the out-of-array)
keypad index 200 reading as pressed, while every index in 0..15 reads
released. -/
def keyState : Chip8State :=
  { init_chip8 [] with V := updN (fun _ => 0) 0 200, keypad := updB (fun _ => false) 200 true }

/-- A freshly constructed machine with `V0 = 7`, `V1 = 9` and the index
register at 768, used to instantiate the `FX55` theorem. -/
def fxStore : Chip8State := { regState 0 7 1 9 with I := 768 }

/-- A freshly constructed machine with `V0 = 60`, `V1 = 30`, the index
register at 768, and a two-row sprite `[0xFF, 0x81]` at ram[768..770),
used to instantiate the draw theorem (both edges clip: column 60 + row
30 with a 2-row sprite). -/
def drawState : Chip8State :=
  { regState 0 60 1 30 with I := 768, ram := updN (updN (fun _ => 0) 768 255) 769 129 }

/-! ### Theorems -/

theorem updN_same (f : Nat → Nat) (i v : Nat) : updN f i v i = v := by
  simp [updN]

theorem updN_ne (f : Nat → Nat) (i v j : Nat) (h : j ≠ i) : updN f i v j = f j := by
  simp [updN, h]

theorem updB_same (f : Nat → Bool) (i : Nat) (v : Bool) : updB f i v i = v := by
  simp [updB]

theorem updB_ne (f : Nat → Bool) (i : Nat) (v : Bool) (j : Nat) (h : j ≠ i) :
    updB f i v j = f j := by
  simp [updB, h]

theorem exec_opcode_cls8 (ext : Chip8Extension) (rnd op : Nat) (c : Chip8State)
    (w : WaitState) (h : opCls op = 8) :
    exec_opcode ext rnd op c w = op_cls8 ext c w (opX op) (opY op) (opN op) := by
  simp [exec_opcode, h]

theorem exec_opcode_clsD (ext : Chip8Extension) (rnd op : Nat) (c : Chip8State)
    (w : WaitState) (h : opCls op = 13) :
    exec_opcode ext rnd op c w = op_clsD c w (opX op) (opY op) (opN op) := by
  simp [exec_opcode, h]

theorem exec_opcode_clsE (ext : Chip8Extension) (rnd op : Nat) (c : Chip8State)
    (w : WaitState) (h : opCls op = 14) :
    exec_opcode ext rnd op c w = op_clsE c w (opX op) (opNN op) := by
  simp [exec_opcode, h]

theorem exec_opcode_clsF (ext : Chip8Extension) (rnd op : Nat) (c : Chip8State)
    (w : WaitState) (h : opCls op = 15) :
    exec_opcode ext rnd op c w = op_clsF ext c w (opX op) (opNN op) := by
  simp [exec_opcode, h]

theorem storeRegs_chip8_spec (V : Nat → Nat) :
    ∀ cnt i ram ireg, ireg + cnt < 65536 →
      ((storeRegs .CHIP8 V cnt i ram ireg).2 = ireg + cnt) ∧
      (∀ t, t < cnt → (storeRegs .CHIP8 V cnt i ram ireg).1 (ireg + t) = u8 (V (i + t))) ∧
      (∀ a, (∀ t, t < cnt → a ≠ ireg + t) → (storeRegs .CHIP8 V cnt i ram ireg).1 a = ram a) := by
  intro cnt
  induction cnt with
  | zero =>
    intro i ram ireg _
    exact ⟨rfl, by omega, fun a _ => rfl⟩
  | succ n ih =>
    intro i ram ireg h
    have h1 : u16 (ireg + 1) = ireg + 1 := by unfold u16; omega
    simp only [storeRegs, h1, reduceIte]
    obtain ⟨ih1, ih2, ih3⟩ := ih (i + 1) (updN ram ireg (u8 (V i))) (ireg + 1) (by omega)
    refine ⟨by rw [ih1]; omega, ?_, ?_⟩
    · intro t ht
      cases t with
      | zero =>
        simpa [updN_same] using ih3 ireg (by intro t ht2; omega)
      | succ t2 =>
        have e1 : ireg + (t2 + 1) = ireg + 1 + t2 := by omega
        have e2 : i + (t2 + 1) = i + 1 + t2 := by omega
        rw [e1, e2]
        exact ih2 t2 (by omega)
    · intro a ha
      rw [ih3 a (by intro t ht2; have := ha (t + 1) (by omega); omega),
        updN_ne _ _ _ _ (by have := ha 0 (by omega); omega)]

theorem storeRegs_ext_spec (ext : Chip8Extension) (hext : ext ≠ .CHIP8) (V : Nat → Nat) :
    ∀ cnt i ram ireg,
      ((storeRegs ext V cnt i ram ireg).2 = ireg) ∧
      (∀ t, t < cnt → (storeRegs ext V cnt i ram ireg).1 (ireg + i + t) = u8 (V (i + t))) ∧
      (∀ a, (∀ t, t < cnt → a ≠ ireg + i + t) → (storeRegs ext V cnt i ram ireg).1 a = ram a) := by
  intro cnt
  induction cnt with
  | zero =>
    intro i ram ireg
    exact ⟨rfl, by omega, fun a _ => rfl⟩
  | succ n ih =>
    intro i ram ireg
    simp only [storeRegs, if_neg hext]
    obtain ⟨ih1, ih2, ih3⟩ := ih (i + 1) (updN ram (ireg + i) (u8 (V i))) ireg
    refine ⟨ih1, ?_, ?_⟩
    · intro t ht
      cases t with
      | zero =>
        simpa [updN_same] using ih3 (ireg + i) (by intro t ht2; omega)
      | succ t2 =>
        have e1 : ireg + i + (t2 + 1) = ireg + (i + 1) + t2 := by omega
        have e2 : i + (t2 + 1) = i + 1 + t2 := by omega
        rw [e1, e2]
        exact ih2 t2 (by omega)
    · intro a ha
      rw [ih3 a (by intro t ht2; have := ha (t + 1) (by omega); omega),
        updN_ne _ _ _ _ (by have := ha 0 (by omega); omega)]

/-- Claim C3: `FX55` writes exactly `V0..Vx` to `ram[I..I + X]` and
nothing else; in Original mode the index register ends at `I + X + 1`
(one increment per byte written) and in Extended mode it is unchanged.
The hypothesis keeps the written window inside the 4096-byte ram, where
the C loop is well defined. -/
theorem chip8_C3 (ext : Chip8Extension) (rnd X : Nat) (c : Chip8State) (w : WaitState)
    (hX : X < 16) (hV : ∀ i, i ≤ X → c.V i < 256) (hI : c.I + X + 1 ≤ 4096) :
    (∀ i, i ≤ X → (exec_opcode ext rnd (0xF055 + X * 256) c w).1.ram (c.I + i) = c.V i) ∧
    (∀ a, a < c.I ∨ c.I + X < a →
      (exec_opcode ext rnd (0xF055 + X * 256) c w).1.ram a = c.ram a) ∧
    (ext = .CHIP8 → (exec_opcode ext rnd (0xF055 + X * 256) c w).1.I = c.I + X + 1) ∧
    (ext ≠ .CHIP8 → (exec_opcode ext rnd (0xF055 + X * 256) c w).1.I = c.I) := by
  have hcls : opCls (0xF055 + X * 256) = 15 := by unfold opCls; omega
  have hx : opX (0xF055 + X * 256) = X := by unfold opX; omega
  have hnn : opNN (0xF055 + X * 256) = 0x55 := by unfold opNN; omega
  rw [exec_opcode_clsF ext rnd _ c w hcls, hx, hnn]
  simp only [op_clsF]
  norm_num
  by_cases hext : ext = .CHIP8
  · subst hext
    obtain ⟨h1, h2, h3⟩ := storeRegs_chip8_spec c.V (X + 1) 0 c.ram c.I (by omega)
    refine ⟨?_, ?_, fun _ => by rw [h1]; omega, fun hne => absurd rfl hne⟩
    · intro i hi
      rw [h2 i (by omega), Nat.zero_add]
      have := hV i hi
      unfold u8
      omega
    · intro a ha
      exact h3 a (by intro t ht; omega)
  · obtain ⟨h1, h2, h3⟩ := storeRegs_ext_spec ext hext c.V (X + 1) 0 c.ram c.I
    refine ⟨?_, ?_, fun he => absurd he hext, fun _ => by rw [h1]⟩
    · intro i hi
      have e1 : c.I + i = c.I + 0 + i := by omega
      rw [e1, h2 i (by omega), Nat.zero_add]
      have := hV i hi
      unfold u8
      omega
    · intro a ha
      exact h3 a (by intro t ht; omega)

theorem chip8_C3_witness :
    ((∀ i, i ≤ 2 → (exec_opcode .CHIP8 0 (0xF055 + 2 * 256) fxStore waitReset).1.ram
        (fxStore.I + i) = fxStore.V i) ∧
      (∀ a, a < fxStore.I ∨ fxStore.I + 2 < a →
        (exec_opcode .CHIP8 0 (0xF055 + 2 * 256) fxStore waitReset).1.ram a = fxStore.ram a) ∧
      (Chip8Extension.CHIP8 = Chip8Extension.CHIP8 →
        (exec_opcode .CHIP8 0 (0xF055 + 2 * 256) fxStore waitReset).1.I = fxStore.I + 2 + 1) ∧
      (Chip8Extension.CHIP8 ≠ Chip8Extension.CHIP8 →
        (exec_opcode .CHIP8 0 (0xF055 + 2 * 256) fxStore waitReset).1.I = fxStore.I)) :=
  chip8_C3 .CHIP8 0 2 fxStore waitReset (by decide) (by decide) (by decide)

/-- Claim C1: for all byte values `a`, `b`, executing `8XY4` with
`Vx = a`, `Vy = b` leaves `Vx = (a + b) % 256` and `VF = 1` iff
`a + b > 255` (in particular `VF = 0` when the 9-bit sum does not
overflow).  `X ≠ 15` keeps `Vx` and the flag register distinct, as the
claim presupposes by speaking about both. -/
theorem chip8_C1 (ext : Chip8Extension) (rnd X Y a b : Nat) (c : Chip8State) (w : WaitState)
    (hX : X < 16) (hY : Y < 16) (hXF : X ≠ 15) (ha : a < 256) (hb : b < 256)
    (hVX : c.V X = a) (hVY : c.V Y = b) :
    ((exec_opcode ext rnd (0x8000 + X * 256 + Y * 16 + 4) c w).1.V X = (a + b) % 256) ∧
    ((exec_opcode ext rnd (0x8000 + X * 256 + Y * 16 + 4) c w).1.V 15
      = if 255 < a + b then 1 else 0) := by
  have hcls : opCls (0x8000 + X * 256 + Y * 16 + 4) = 8 := by unfold opCls; omega
  have hx : opX (0x8000 + X * 256 + Y * 16 + 4) = X := by unfold opX; omega
  have hy : opY (0x8000 + X * 256 + Y * 16 + 4) = Y := by unfold opY; omega
  have hn : opN (0x8000 + X * 256 + Y * 16 + 4) = 4 := by unfold opN; omega
  rw [exec_opcode_cls8 ext rnd _ c w hcls, hx, hy, hn]
  have hu : u16 (c.V X + c.V Y) = a + b := by unfold u16; omega
  simp only [op_cls8]
  norm_num [hu]
  constructor
  · rw [updN_ne _ _ _ _ hXF, updN_same]
    unfold u8
    omega
  · rw [updN_same]

/-- Claim C4: one `update_timers` call decrements each of the delay and
sound timers by 1, floored at 0 (`Nat` subtraction is exactly the
floored decrement: a timer at 0 stays 0). -/
theorem chip8_C4 (c : Chip8State) :
    (update_timers c).delay_timer = c.delay_timer - 1 ∧
    (update_timers c).sound_timer = c.sound_timer - 1 := by
  unfold update_timers
  by_cases h1 : 0 < c.delay_timer <;> by_cases h2 : 0 < c.sound_timer <;>
    simp [h1, h2] <;> omega

/-- Claim C6 (supporting evaluation): from construction on the rom
`[0x1F, 0xFF]` (the jump `1FFF`), a single `emulate_instruction` step
produces `PC = 4095`, violating the claimed invariant `PC ≤ 4094`; the
2-byte fetch at that `PC` reaches index `PC + 1 = 4096`, one past the
end of the 4096-byte ram. -/
theorem chip8_C6_bug :
    (emulate_instruction CURRENT_EXTENSION 0 jumpTopProg waitReset).1.PC = 4095 ∧
    ¬ (emulate_instruction CURRENT_EXTENSION 0 jumpTopProg waitReset).1.PC ≤ 4094 ∧
    4096 ≤ (emulate_instruction CURRENT_EXTENSION 0 jumpTopProg waitReset).1.PC + 1 := by
  decide

/-- Claim C8: on identical pre-states, `8XY6` under Original mode sets
`VF` to the low bit of `Vy` and `Vx` to `Vy >> 1`, while under Extended
mode it sets `VF` to the low bit of `Vx` and `Vx` to `Vx >> 1`. -/
theorem chip8_C8 (ext : Chip8Extension) (rnd X Y a b : Nat) (c : Chip8State) (w : WaitState)
    (hX : X < 16) (hY : Y < 16) (hXF : X ≠ 15) (ha : a < 256) (hb : b < 256)
    (hVX : c.V X = a) (hVY : c.V Y = b) (hext : ext ≠ .CHIP8) :
    ((exec_opcode .CHIP8 rnd (0x8000 + X * 256 + Y * 16 + 6) c w).1.V 15 = b % 2 ∧
     (exec_opcode .CHIP8 rnd (0x8000 + X * 256 + Y * 16 + 6) c w).1.V X = b / 2) ∧
    ((exec_opcode ext rnd (0x8000 + X * 256 + Y * 16 + 6) c w).1.V 15 = a % 2 ∧
     (exec_opcode ext rnd (0x8000 + X * 256 + Y * 16 + 6) c w).1.V X = a / 2) := by
  have hcls : opCls (0x8000 + X * 256 + Y * 16 + 6) = 8 := by unfold opCls; omega
  have hx : opX (0x8000 + X * 256 + Y * 16 + 6) = X := by unfold opX; omega
  have hy : opY (0x8000 + X * 256 + Y * 16 + 6) = Y := by unfold opY; omega
  have hn : opN (0x8000 + X * 256 + Y * 16 + 6) = 6 := by unfold opN; omega
  rw [exec_opcode_cls8 .CHIP8 rnd _ c w hcls, exec_opcode_cls8 ext rnd _ c w hcls, hx, hy, hn]
  simp only [op_cls8]
  norm_num [hext]
  refine ⟨⟨?_, ?_⟩, ?_, ?_⟩
  · rw [updN_same, hVY]
  · rw [updN_ne _ _ _ _ hXF, updN_same, hVY]
    unfold u8
    omega
  · rw [updN_same, hVX]
  · rw [updN_ne _ _ _ _ hXF, updN_same, hVX]
    unfold u8
    omega

/-- Claim C9: `EX9E`/`EXA1` decide the skip by indexing the keypad with
the raw 8-bit value of `Vx`, unmasked and unchecked, so the consulted
index is `v` itself even when `v ≥ 16` (outside the 16-entry key
array). -/
theorem chip8_C9 (ext : Chip8Extension) (rnd X v : Nat) (c : Chip8State) (w : WaitState)
    (hX : X < 16) (hv : v < 256) (hVX : c.V X = v) :
    ((exec_opcode ext rnd (0xE09E + X * 256) c w).1.PC
      = if c.keypad v then u16 (c.PC + 2) else c.PC) ∧
    ((exec_opcode ext rnd (0xE0A1 + X * 256) c w).1.PC
      = if c.keypad v then c.PC else u16 (c.PC + 2)) := by
  have hcls1 : opCls (0xE09E + X * 256) = 14 := by unfold opCls; omega
  have hx1 : opX (0xE09E + X * 256) = X := by unfold opX; omega
  have hnn1 : opNN (0xE09E + X * 256) = 0x9E := by unfold opNN; omega
  have hcls2 : opCls (0xE0A1 + X * 256) = 14 := by unfold opCls; omega
  have hx2 : opX (0xE0A1 + X * 256) = X := by unfold opX; omega
  have hnn2 : opNN (0xE0A1 + X * 256) = 0xA1 := by unfold opNN; omega
  rw [exec_opcode_clsE ext rnd _ c w hcls1, exec_opcode_clsE ext rnd _ c w hcls2,
    hx1, hnn1, hx2, hnn2]
  simp only [op_clsE]
  norm_num [hVX]
  constructor <;> split_ifs <;> simp

/-- Claim C10: a `DXYN` draw with `N = 0` runs zero sprite rows: the
framebuffer is unchanged and `VF` is the 0 it was reset to, yet the
draw (redraw-pending) flag is still set to true. -/
theorem chip8_C10 (ext : Chip8Extension) (rnd X Y : Nat) (c : Chip8State) (w : WaitState)
    (hX : X < 16) (hY : Y < 16) :
    ((exec_opcode ext rnd (0xD000 + X * 256 + Y * 16) c w).1.display = c.display) ∧
    ((exec_opcode ext rnd (0xD000 + X * 256 + Y * 16) c w).1.V 15 = 0) ∧
    ((exec_opcode ext rnd (0xD000 + X * 256 + Y * 16) c w).1.draw = true) := by
  have hcls : opCls (0xD000 + X * 256 + Y * 16) = 13 := by unfold opCls; omega
  have hx : opX (0xD000 + X * 256 + Y * 16) = X := by unfold opX; omega
  have hy : opY (0xD000 + X * 256 + Y * 16) = Y := by unfold opY; omega
  have hn : opN (0xD000 + X * 256 + Y * 16) = 0 := by unfold opN; omega
  rw [exec_opcode_clsD ext rnd _ c w hcls, hx, hy, hn]
  simp [op_clsD, drawAux, updN_same]

theorem getD_map_range (f : Nat → Nat) {n i : Nat} (h : i < n) :
    ((List.range n).map f).getD i 0 = f i := by
  have hl : i < ((List.range n).map f).length := by simpa using h
  rw [List.getD_eq_getElem _ _ hl]
  simp

theorem getD_skip (l1 l2 : List Nat) (k i : Nat) (h : l1.length = k) :
    (l1 ++ l2).getD (k + i) 0 = l2.getD i 0 := by
  rw [List.getD_append_right _ _ _ _ (by omega)]
  congr 1
  omega

theorem natToBool_boolToNat (b : Bool) : natToBool (boolToNat b) = b := by
  cases b <;> rfl

theorem save_getD_ram (c : Chip8State) {i : Nat} (h : i < 4096) :
    (save_state c).getD i 0 = c.ram i := by
  unfold save_state
  rw [List.getD_append, List.getD_append, List.getD_append, List.getD_append,
    List.getD_append, List.getD_append, List.getD_append]
  · exact getD_map_range _ h
  all_goals
    simp only [List.length_append, List.length_map, List.length_range, List.length_cons,
      List.length_nil]
  all_goals omega

theorem save_getD_display (c : Chip8State) {i : Nat} (h : i < 2048) :
    (save_state c).getD (4096 + i) 0 = boolToNat (c.display i) := by
  unfold save_state
  rw [List.getD_append, List.getD_append, List.getD_append, List.getD_append,
    List.getD_append, List.getD_append, List.getD_append_right]
  · simp only [List.length_map, List.length_range, Nat.add_sub_cancel_left]
    exact getD_map_range _ h
  all_goals
    simp only [List.length_append, List.length_map, List.length_range, List.length_cons,
      List.length_nil]
  all_goals omega

theorem save_getD_stack (c : Chip8State) {i : Nat} (h : i < 12) :
    (save_state c).getD (6144 + i) 0 = c.stack i := by
  unfold save_state
  rw [List.getD_append, List.getD_append, List.getD_append, List.getD_append,
    List.getD_append, List.getD_append_right]
  · simp only [List.length_append, List.length_map, List.length_range]
    have e : 6144 + i - (4096 + 2048) = i := by omega
    rw [e]
    exact getD_map_range _ h
  all_goals
    simp only [List.length_append, List.length_map, List.length_range, List.length_cons,
      List.length_nil]
  all_goals omega

theorem save_getD_sp (c : Chip8State) : (save_state c).getD 6156 0 = c.sp := by
  unfold save_state
  rw [List.getD_append, List.getD_append, List.getD_append, List.getD_append,
    List.getD_append_right]
  · simp only [List.length_append, List.length_map, List.length_range]
    norm_num
  all_goals
    simp only [List.length_append, List.length_map, List.length_range, List.length_cons,
      List.length_nil]
  all_goals omega

theorem save_getD_V (c : Chip8State) {i : Nat} (h : i < 16) :
    (save_state c).getD (6157 + i) 0 = c.V i := by
  unfold save_state
  rw [List.getD_append, List.getD_append, List.getD_append, List.getD_append_right]
  · simp only [List.length_append, List.length_map, List.length_range, List.length_cons,
      List.length_nil]
    have e : 6157 + i - (4096 + 2048 + 12 + 1) = i := by omega
    rw [e]
    exact getD_map_range _ h
  all_goals
    simp only [List.length_append, List.length_map, List.length_range, List.length_cons,
      List.length_nil]
  all_goals omega

theorem save_getD_I (c : Chip8State) : (save_state c).getD 6173 0 = c.I := by
  unfold save_state
  rw [List.getD_append, List.getD_append, List.getD_append_right]
  · simp only [List.length_append, List.length_map, List.length_range, List.length_cons,
      List.length_nil]
    norm_num
  all_goals
    simp only [List.length_append, List.length_map, List.length_range, List.length_cons,
      List.length_nil]
  all_goals omega

theorem save_getD_PC (c : Chip8State) : (save_state c).getD 6174 0 = c.PC := by
  unfold save_state
  rw [List.getD_append, List.getD_append, List.getD_append_right]
  · simp only [List.length_append, List.length_map, List.length_range, List.length_cons,
      List.length_nil]
    norm_num
  all_goals
    simp only [List.length_append, List.length_map, List.length_range, List.length_cons,
      List.length_nil]
  all_goals omega

theorem save_getD_delay (c : Chip8State) :
    (save_state c).getD 6175 0 = c.delay_timer := by
  unfold save_state
  rw [List.getD_append, List.getD_append, List.getD_append_right]
  · simp only [List.length_append, List.length_map, List.length_range, List.length_cons,
      List.length_nil]
    norm_num
  all_goals
    simp only [List.length_append, List.length_map, List.length_range, List.length_cons,
      List.length_nil]
  all_goals omega

theorem save_getD_sound (c : Chip8State) :
    (save_state c).getD 6176 0 = c.sound_timer := by
  unfold save_state
  rw [List.getD_append, List.getD_append, List.getD_append_right]
  · simp only [List.length_append, List.length_map, List.length_range, List.length_cons,
      List.length_nil]
    norm_num
  all_goals
    simp only [List.length_append, List.length_map, List.length_range, List.length_cons,
      List.length_nil]
  all_goals omega

theorem save_getD_keypad (c : Chip8State) {i : Nat} (h : i < 16) :
    (save_state c).getD (6177 + i) 0 = boolToNat (c.keypad i) := by
  unfold save_state
  rw [List.getD_append, List.getD_append_right]
  · simp only [List.length_append, List.length_map, List.length_range, List.length_cons,
      List.length_nil]
    have e : 6177 + i - (4096 + 2048 + 12 + 1 + 16 + 4) = i := by omega
    rw [e]
    exact getD_map_range _ h
  all_goals
    simp only [List.length_append, List.length_map, List.length_range, List.length_cons,
      List.length_nil]
  all_goals omega

theorem save_getD_draw (c : Chip8State) :
    (save_state c).getD 6193 0 = boolToNat c.draw := by
  unfold save_state
  rw [List.getD_append_right]
  · simp only [List.length_append, List.length_map, List.length_range, List.length_cons,
      List.length_nil]
    norm_num
  · simp only [List.length_append, List.length_map, List.length_range, List.length_cons,
      List.length_nil]
    omega

/-- Claim C5, amended: restoring a saved snapshot reproduces every field
of the `Chip8State` struct exactly (on the indices the C arrays have),
including the redraw-pending flag; but the `FX0A` await-key capture
lives in C `static` locals outside the struct, is not serialized, and
keeps the live process's value after a load. -/
theorem chip8_C5_amended (c : Chip8State) (live : Chip8State × WaitState) :
    ((load_state (save_state c) live).2 = live.2) ∧
    (∀ i, i < 4096 → (load_state (save_state c) live).1.ram i = c.ram i) ∧
    (∀ n, n < 2048 → (load_state (save_state c) live).1.display n = c.display n) ∧
    (∀ i, i < 12 → (load_state (save_state c) live).1.stack i = c.stack i) ∧
    ((load_state (save_state c) live).1.sp = c.sp) ∧
    (∀ i, i < 16 → (load_state (save_state c) live).1.V i = c.V i) ∧
    ((load_state (save_state c) live).1.I = c.I) ∧
    ((load_state (save_state c) live).1.PC = c.PC) ∧
    ((load_state (save_state c) live).1.delay_timer = c.delay_timer) ∧
    ((load_state (save_state c) live).1.sound_timer = c.sound_timer) ∧
    (∀ i, i < 16 → (load_state (save_state c) live).1.keypad i = c.keypad i) ∧
    ((load_state (save_state c) live).1.draw = c.draw) := by
  unfold load_state parse_state
  dsimp only
  refine ⟨rfl, ?_, ?_, ?_, ?_, ?_, ?_, ?_, ?_, ?_, ?_, ?_⟩
  · intro i h
    rw [if_pos h, save_getD_ram c h]
  · intro n h
    rw [if_pos h, save_getD_display c h, natToBool_boolToNat]
  · intro i h
    rw [if_pos h, save_getD_stack c h]
  · exact save_getD_sp c
  · intro i h
    rw [if_pos h, save_getD_V c h]
  · exact save_getD_I c
  · exact save_getD_PC c
  · exact save_getD_delay c
  · exact save_getD_sound c
  · intro i h
    rw [if_pos h, save_getD_keypad c h, natToBool_boolToNat]
  · rw [save_getD_draw c, natToBool_boolToNat]

/-- Claim C5, counterexample: `deserialize (serialize s)` is not the
identity on the full machine.  `pressedStep 5` is a machine reachable
from construction that is paused mid-await-key with key 5 captured in
the `FX0A` statics; loading its snapshot into a process whose statics
have been reset does not reproduce it (the captured key is lost). -/
theorem chip8_C5_counterexample :
    load_state (save_state (pressedStep 5).1) ((pressedStep 5).1, waitReset)
      ≠ pressedStep 5 :=
  fun h => absurd (congrArg (fun p => p.2.key) h) (by decide)

theorem chip8_C5_witness :
    ((load_state (save_state awaitProg) (awaitProg, waitReset)).2 = (awaitProg, waitReset).2) ∧
    (∀ i, i < 4096 →
      (load_state (save_state awaitProg) (awaitProg, waitReset)).1.ram i = awaitProg.ram i) ∧
    (∀ n, n < 2048 →
      (load_state (save_state awaitProg) (awaitProg, waitReset)).1.display n
        = awaitProg.display n) ∧
    (∀ i, i < 12 →
      (load_state (save_state awaitProg) (awaitProg, waitReset)).1.stack i
        = awaitProg.stack i) ∧
    ((load_state (save_state awaitProg) (awaitProg, waitReset)).1.sp = awaitProg.sp) ∧
    (∀ i, i < 16 →
      (load_state (save_state awaitProg) (awaitProg, waitReset)).1.V i = awaitProg.V i) ∧
    ((load_state (save_state awaitProg) (awaitProg, waitReset)).1.I = awaitProg.I) ∧
    ((load_state (save_state awaitProg) (awaitProg, waitReset)).1.PC = awaitProg.PC) ∧
    ((load_state (save_state awaitProg) (awaitProg, waitReset)).1.delay_timer
      = awaitProg.delay_timer) ∧
    ((load_state (save_state awaitProg) (awaitProg, waitReset)).1.sound_timer
      = awaitProg.sound_timer) ∧
    (∀ i, i < 16 →
      (load_state (save_state awaitProg) (awaitProg, waitReset)).1.keypad i
        = awaitProg.keypad i) ∧
    ((load_state (save_state awaitProg) (awaitProg, waitReset)).1.draw = awaitProg.draw) :=
  chip8_C5_amended awaitProg (awaitProg, waitReset)

/-- Claim C7: on the program `[0xF0, 0x0A]` with no key ever pressed,
any number of `emulate_instruction` calls is the identity (so the
program counter never advances past the instruction and `V0` is
unchanged); once a key `k` is observed pressed (first call) and then
released (second call), `V0` is assigned `k`, the statics reset, and the
program counter moves past the instruction. -/
theorem chip8_C7 :
    (∀ n, stepN 0 n (awaitProg, waitReset) = (awaitProg, waitReset)) ∧
    (∀ n, (stepN 0 n (awaitProg, waitReset)).1.PC = 0x200 ∧
      (stepN 0 n (awaitProg, waitReset)).1.V 0 = awaitProg.V 0) ∧
    (∀ k, k < 16 →
      (pressedStep k).1.PC = 0x200 ∧
      (pressedStep k).1.V 0 = awaitProg.V 0 ∧
      (pressedStep k).2 = ⟨true, k⟩ ∧
      (releasedStep k).1.V 0 = k ∧
      (releasedStep k).1.PC = 0x202 ∧
      (releasedStep k).2 = waitReset) := by
  have hfix : emulate_instruction CURRENT_EXTENSION 0 awaitProg waitReset
      = (awaitProg, waitReset) := rfl
  have hall : ∀ n, stepN 0 n (awaitProg, waitReset) = (awaitProg, waitReset) := by
    intro n
    induction n with
    | zero => rfl
    | succ m ih =>
      show stepN 0 m (emulate_instruction CURRENT_EXTENSION 0 awaitProg waitReset)
        = (awaitProg, waitReset)
      rw [hfix]
      exact ih
  refine ⟨hall, fun n => by rw [hall n]; exact ⟨rfl, rfl⟩, ?_⟩
  intro k hk
  interval_cases k <;>
    exact ⟨by decide, by decide, by decide, by decide, by decide, by decide⟩

theorem chip8_C7_witness :
    stepN 0 3 (awaitProg, waitReset) = (awaitProg, waitReset) ∧
    ((pressedStep 5).1.PC = 0x200 ∧
      (pressedStep 5).1.V 0 = awaitProg.V 0 ∧
      (pressedStep 5).2 = ⟨true, 5⟩ ∧
      (releasedStep 5).1.V 0 = 5 ∧
      (releasedStep 5).1.PC = 0x202 ∧
      (releasedStep 5).2 = waitReset) :=
  ⟨chip8_C7.1 3, chip8_C7.2.2 5 (by decide)⟩

theorem drawRowAux_spec (y sprite : Nat) :
    ∀ f x disp vf, x < 64 →
      ((∀ t, t < min f (64 - x) →
          (drawRowAux y sprite f x disp vf).1 (y * 64 + (x + t))
            = Bool.xor (disp (y * 64 + (x + t))) (Nat.testBit sprite (f - 1 - t))) ∧
        (∀ m, (∀ t, t < min f (64 - x) → m ≠ y * 64 + (x + t)) →
          (drawRowAux y sprite f x disp vf).1 m = disp m) ∧
        ((∃ t, t < min f (64 - x) ∧ Nat.testBit sprite (f - 1 - t) = true ∧
            disp (y * 64 + (x + t)) = true) →
          (drawRowAux y sprite f x disp vf).2 = 1) ∧
        ((¬ ∃ t, t < min f (64 - x) ∧ Nat.testBit sprite (f - 1 - t) = true ∧
            disp (y * 64 + (x + t)) = true) →
          (drawRowAux y sprite f x disp vf).2 = vf)) := by
  intro f
  induction f with
  | zero =>
    intro x disp vf hx
    refine ⟨?_, ?_, ?_, ?_⟩
    · intro t ht
      omega
    · intro m _
      rfl
    · rintro ⟨t, ht, -, -⟩
      omega
    · intro _
      rfl
  | succ f ih =>
    intro x disp vf hx
    by_cases hend : 64 ≤ x + 1
    · have hr : drawRowAux y sprite (f + 1) x disp vf
          = (updB disp (y * 64 + x) (Bool.xor (disp (y * 64 + x)) (Nat.testBit sprite f)),
             if Nat.testBit sprite f && disp (y * 64 + x) then 1 else vf) := by
        simp only [drawRowAux, if_pos hend]
      rw [hr]
      refine ⟨?_, ?_, ?_, ?_⟩
      · intro t ht
        have ht0 : t = 0 := by omega
        subst ht0
        simp only [Nat.add_zero]
        rw [updB_same]
        rfl
      · intro m hm
        have hne : m ≠ y * 64 + x := by
          have := hm 0 (by omega)
          omega
        exact updB_ne _ _ _ _ hne
      · rintro ⟨t, ht, hbit, hpix⟩
        have ht0 : t = 0 := by omega
        subst ht0
        have hb : (Nat.testBit sprite f && disp (y * 64 + x)) = true := by
          rw [Bool.and_eq_true]
          exact ⟨hbit, hpix⟩
        simp only [hb]
        rfl
      · intro hno
        rw [if_neg]
        intro hb
        obtain ⟨h1, h2⟩ := (Bool.and_eq_true _ _).mp hb
        exact hno ⟨0, by omega, h1, h2⟩
    · have hx1 : x + 1 < 64 := by omega
      have hr : drawRowAux y sprite (f + 1) x disp vf
          = drawRowAux y sprite f (x + 1)
              (updB disp (y * 64 + x) (Bool.xor (disp (y * 64 + x)) (Nat.testBit sprite f)))
              (if Nat.testBit sprite f && disp (y * 64 + x) then 1 else vf) := by
        simp only [drawRowAux, if_neg hend]
      set disp1 := updB disp (y * 64 + x) (Bool.xor (disp (y * 64 + x)) (Nat.testBit sprite f))
        with hdisp1
      set vf1 := (if Nat.testBit sprite f && disp (y * 64 + x) then (1 : Nat) else vf)
        with hvf1def
      have hd1same : ∀ t, disp1 (y * 64 + (x + 1 + t)) = disp (y * 64 + (x + 1 + t)) := by
        intro t
        rw [hdisp1]
        apply updB_ne
        omega
      obtain ⟨ih1, ih2, ih3, ih4⟩ := ih (x + 1) disp1 vf1 hx1
      rw [hr]
      refine ⟨?_, ?_, ?_, ?_⟩
      · intro t ht
        cases t with
        | zero =>
          have hcell : y * 64 + (x + 0) = y * 64 + x := by omega
          rw [hcell, ih2 (y * 64 + x) (by intro t2 ht2; omega), hdisp1, updB_same]
          rfl
        | succ t2 =>
          have hcell : y * 64 + (x + (t2 + 1)) = y * 64 + (x + 1 + t2) := by omega
          have hidx : f + 1 - 1 - (t2 + 1) = f - 1 - t2 := by omega
          rw [hcell, hidx, ih1 t2 (by omega), hd1same t2]
      · intro m hm
        have h1 : ∀ t2, t2 < min f (64 - (x + 1)) → m ≠ y * 64 + (x + 1 + t2) := by
          intro t2 ht2
          have := hm (t2 + 1) (by omega)
          omega
        have h0 : m ≠ y * 64 + x := by
          have := hm 0 (by omega)
          omega
        rw [ih2 m h1, hdisp1]
        exact updB_ne _ _ _ _ h0
      · rintro ⟨t, ht, hbit, hpix⟩
        cases t with
        | zero =>
          have hb : (Nat.testBit sprite f && disp (y * 64 + x)) = true := by
            rw [Bool.and_eq_true]
            refine ⟨hbit, ?_⟩
            have hcell : y * 64 + (x + 0) = y * 64 + x := by omega
            rw [← hcell]
            exact hpix
          have hvf1 : vf1 = 1 := by
            rw [hvf1def, if_pos hb]
          by_cases hE : ∃ t2, t2 < min f (64 - (x + 1)) ∧
              Nat.testBit sprite (f - 1 - t2) = true ∧ disp1 (y * 64 + (x + 1 + t2)) = true
          · exact ih3 hE
          · rw [ih4 hE, hvf1]
        | succ t2 =>
          apply ih3
          refine ⟨t2, by omega, ?_, ?_⟩
          · rw [show f - 1 - t2 = f + 1 - 1 - (t2 + 1) from by omega]
            exact hbit
          · rw [hd1same t2, show y * 64 + (x + 1 + t2) = y * 64 + (x + (t2 + 1)) from by omega]
            exact hpix
      · intro hno
        have hvf1 : vf1 = vf := by
          rw [hvf1def, if_neg]
          intro hb
          obtain ⟨h1, h2⟩ := (Bool.and_eq_true _ _).mp hb
          exact hno ⟨0, by omega, h1, h2⟩
        have hE : ¬ ∃ t2, t2 < min f (64 - (x + 1)) ∧
            Nat.testBit sprite (f - 1 - t2) = true ∧ disp1 (y * 64 + (x + 1 + t2)) = true := by
          rintro ⟨t2, ht2, hb, hp⟩
          apply hno
          refine ⟨t2 + 1, by omega, ?_, ?_⟩
          · rw [show f + 1 - 1 - (t2 + 1) = f - 1 - t2 from by omega]
            exact hb
          · rw [show y * 64 + (x + (t2 + 1)) = y * 64 + (x + 1 + t2) from by omega,
              ← hd1same t2]
            exact hp
        rw [ih4 hE, hvf1]

theorem drawAux_spec (x0 : Nat) (ram : Nat → Nat) (hx : x0 < 64) :
    ∀ n y addr disp vf, y < 32 →
      ((∀ i t, i < min n (32 - y) → t < min 8 (64 - x0) →
          (drawAux x0 ram n y addr disp vf).1 ((y + i) * 64 + (x0 + t))
            = Bool.xor (disp ((y + i) * 64 + (x0 + t))) (Nat.testBit (ram (addr + i)) (7 - t))) ∧
        (∀ m, (∀ i t, i < min n (32 - y) → t < min 8 (64 - x0) →
            m ≠ (y + i) * 64 + (x0 + t)) →
          (drawAux x0 ram n y addr disp vf).1 m = disp m) ∧
        ((∃ i, i < min n (32 - y) ∧ ∃ t, t < min 8 (64 - x0) ∧
            Nat.testBit (ram (addr + i)) (7 - t) = true ∧
            disp ((y + i) * 64 + (x0 + t)) = true) →
          (drawAux x0 ram n y addr disp vf).2 = 1) ∧
        ((¬ ∃ i, i < min n (32 - y) ∧ ∃ t, t < min 8 (64 - x0) ∧
            Nat.testBit (ram (addr + i)) (7 - t) = true ∧
            disp ((y + i) * 64 + (x0 + t)) = true) →
          (drawAux x0 ram n y addr disp vf).2 = vf)) := by
  intro n
  induction n with
  | zero =>
    intro y addr disp vf hy
    refine ⟨?_, ?_, ?_, ?_⟩
    · intro i t hi ht
      omega
    · intro m _
      rfl
    · rintro ⟨i, hi, -⟩
      omega
    · intro _
      rfl
  | succ n ih =>
    intro y addr disp vf hy
    obtain ⟨row1, row2, row3, row4⟩ := drawRowAux_spec y (ram addr) 8 x0 disp vf hx
    by_cases hend : 32 ≤ y + 1
    · have hr : drawAux x0 ram (n + 1) y addr disp vf
          = drawRowAux y (ram addr) 8 x0 disp vf := by
        simp only [drawAux, if_pos hend]
      rw [hr]
      refine ⟨?_, ?_, ?_, ?_⟩
      · intro i t hi ht
        have hi0 : i = 0 := by omega
        subst hi0
        exact row1 t (by omega)
      · intro m hm
        exact row2 m (fun t ht => hm 0 t (by omega) ht)
      · rintro ⟨i, hi, t, ht, hbit, hpix⟩
        have hi0 : i = 0 := by omega
        subst hi0
        exact row3 ⟨t, by omega, hbit, hpix⟩
      · intro hno
        apply row4
        rintro ⟨t, ht, hb, hp⟩
        exact hno ⟨0, by omega, t, by omega, hb, hp⟩
    · have hy1 : y + 1 < 32 := by omega
      have hr : drawAux x0 ram (n + 1) y addr disp vf
          = drawAux x0 ram n (y + 1) (addr + 1) (drawRowAux y (ram addr) 8 x0 disp vf).1
              (drawRowAux y (ram addr) 8 x0 disp vf).2 := by
        simp only [drawAux, if_neg hend]
      set p1 := (drawRowAux y (ram addr) 8 x0 disp vf).1 with hp1def
      set p2 := (drawRowAux y (ram addr) 8 x0 disp vf).2 with hp2def
      have hpcell : ∀ i t, t < min 8 (64 - x0) →
          p1 ((y + 1 + i) * 64 + (x0 + t)) = disp ((y + 1 + i) * 64 + (x0 + t)) := by
        intro i t ht
        apply row2
        intro t2 ht2
        omega
      obtain ⟨ih1, ih2, ih3, ih4⟩ := ih (y + 1) (addr + 1) p1 p2 hy1
      rw [hr]
      refine ⟨?_, ?_, ?_, ?_⟩
      · intro i t hi ht
        cases i with
        | zero =>
          have hlater : ∀ i2 t2, i2 < min n (32 - (y + 1)) → t2 < min 8 (64 - x0) →
              (y + 0) * 64 + (x0 + t) ≠ (y + 1 + i2) * 64 + (x0 + t2) := by
            intro i2 t2 hi2 ht2
            omega
          rw [ih2 ((y + 0) * 64 + (x0 + t)) hlater]
          exact row1 t (by omega)
        | succ i2 =>
          have hcell : (y + (i2 + 1)) * 64 + (x0 + t) = (y + 1 + i2) * 64 + (x0 + t) := by
            omega
          have haddr : addr + 1 + i2 = addr + (i2 + 1) := by omega
          rw [hcell, ih1 i2 t (by omega) ht, hpcell i2 t ht, haddr]
      · intro m hm
        have hlater : ∀ i2 t2, i2 < min n (32 - (y + 1)) → t2 < min 8 (64 - x0) →
            m ≠ (y + 1 + i2) * 64 + (x0 + t2) := by
          intro i2 t2 hi2 ht2
          have := hm (i2 + 1) t2 (by omega) ht2
          omega
        rw [ih2 m hlater]
        apply row2
        intro t2 ht2
        exact hm 0 t2 (by omega) ht2
      · rintro ⟨i, hi, t, ht, hbit, hpix⟩
        cases i with
        | zero =>
          have hp2 : p2 = 1 := row3 ⟨t, by omega, hbit, hpix⟩
          by_cases hE : ∃ i2, i2 < min n (32 - (y + 1)) ∧ ∃ t2, t2 < min 8 (64 - x0) ∧
              Nat.testBit (ram (addr + 1 + i2)) (7 - t2) = true ∧
              p1 ((y + 1 + i2) * 64 + (x0 + t2)) = true
          · exact ih3 hE
          · rw [ih4 hE, hp2]
        | succ i2 =>
          apply ih3
          refine ⟨i2, by omega, t, ht, ?_, ?_⟩
          · rw [show addr + 1 + i2 = addr + (i2 + 1) from by omega]
            exact hbit
          · rw [hpcell i2 t ht,
              show (y + 1 + i2) * 64 + (x0 + t) = (y + (i2 + 1)) * 64 + (x0 + t) from by omega]
            exact hpix
      · intro hno
        have hp2 : p2 = vf := by
          apply row4
          rintro ⟨t, ht, hb, hp⟩
          exact hno ⟨0, by omega, t, by omega, hb, hp⟩
        have hE : ¬ ∃ i2, i2 < min n (32 - (y + 1)) ∧ ∃ t2, t2 < min 8 (64 - x0) ∧
            Nat.testBit (ram (addr + 1 + i2)) (7 - t2) = true ∧
            p1 ((y + 1 + i2) * 64 + (x0 + t2)) = true := by
          rintro ⟨i2, hi2, t2, ht2, hb, hp⟩
          apply hno
          refine ⟨i2 + 1, by omega, t2, ht2, ?_, ?_⟩
          · rw [show addr + (i2 + 1) = addr + 1 + i2 from by omega]
            exact hb
          · rw [show (y + (i2 + 1)) * 64 + (x0 + t2) = (y + 1 + i2) * 64 + (x0 + t2) from by
              omega, ← hpcell i2 t2 ht2]
            exact hp
        rw [ih4 hE, hp2]

/-- Claim C2: the `DXYN` draw starts at column `Vx mod 64` and row
`Vy mod 32`, reads sprite row `i` from `ram[I + i]`, XORs its 8 bits
(most significant first) into the framebuffer, stops a row once the
column would pass 63 and the whole sprite once the row would pass 31
(clipping, never wrapping: every cell outside the clipped rectangle is
unchanged), and `VF`, reset to 0 before the loop, ends 1 exactly when
some drawn sprite bit lands on a set cell. -/
theorem chip8_C2 (ext : Chip8Extension) (rnd X Y N : Nat) (c : Chip8State) (w : WaitState)
    (hX : X < 16) (hY : Y < 16) (hN : N < 16) :
    ((exec_opcode ext rnd (0xD000 + X * 256 + Y * 16 + N) c w).1.draw = true) ∧
    (∀ i t, i < min N (32 - c.V Y % 32) → t < min 8 (64 - c.V X % 64) →
      (exec_opcode ext rnd (0xD000 + X * 256 + Y * 16 + N) c w).1.display
          ((c.V Y % 32 + i) * 64 + (c.V X % 64 + t))
        = Bool.xor (c.display ((c.V Y % 32 + i) * 64 + (c.V X % 64 + t)))
            (Nat.testBit (c.ram (c.I + i)) (7 - t))) ∧
    (∀ m, (∀ i t, i < min N (32 - c.V Y % 32) → t < min 8 (64 - c.V X % 64) →
        m ≠ (c.V Y % 32 + i) * 64 + (c.V X % 64 + t)) →
      (exec_opcode ext rnd (0xD000 + X * 256 + Y * 16 + N) c w).1.display m = c.display m) ∧
    ((∃ i, i < min N (32 - c.V Y % 32) ∧ ∃ t, t < min 8 (64 - c.V X % 64) ∧
        Nat.testBit (c.ram (c.I + i)) (7 - t) = true ∧
        c.display ((c.V Y % 32 + i) * 64 + (c.V X % 64 + t)) = true) →
      (exec_opcode ext rnd (0xD000 + X * 256 + Y * 16 + N) c w).1.V 15 = 1) ∧
    ((¬ ∃ i, i < min N (32 - c.V Y % 32) ∧ ∃ t, t < min 8 (64 - c.V X % 64) ∧
        Nat.testBit (c.ram (c.I + i)) (7 - t) = true ∧
        c.display ((c.V Y % 32 + i) * 64 + (c.V X % 64 + t)) = true) →
      (exec_opcode ext rnd (0xD000 + X * 256 + Y * 16 + N) c w).1.V 15 = 0) := by
  have hcls : opCls (0xD000 + X * 256 + Y * 16 + N) = 13 := by unfold opCls; omega
  have hx : opX (0xD000 + X * 256 + Y * 16 + N) = X := by unfold opX; omega
  have hy : opY (0xD000 + X * 256 + Y * 16 + N) = Y := by unfold opY; omega
  have hn : opN (0xD000 + X * 256 + Y * 16 + N) = N := by unfold opN; omega
  rw [exec_opcode_clsD ext rnd _ c w hcls, hx, hy, hn]
  simp only [op_clsD]
  obtain ⟨d1, d2, d3, d4⟩ := drawAux_spec (c.V X % 64) c.ram
    (Nat.mod_lt _ (by norm_num)) N (c.V Y % 32) c.I c.display 0
    (Nat.mod_lt _ (by norm_num))
  refine ⟨trivial, d1, d2, ?_, ?_⟩
  · intro h
    show updN c.V 15 (drawAux (c.V X % 64) c.ram N (c.V Y % 32) c.I c.display 0).2 15 = 1
    rw [updN_same]
    exact d3 h
  · intro h
    show updN c.V 15 (drawAux (c.V X % 64) c.ram N (c.V Y % 32) c.I c.display 0).2 15 = 0
    rw [updN_same]
    exact d4 h

theorem chip8_C2_witness :
    ((exec_opcode .CHIP8 0 (0xD000 + 0 * 256 + 1 * 16 + 2) drawState waitReset).1.draw
      = true) ∧
    (∀ i t, i < min 2 (32 - drawState.V 1 % 32) → t < min 8 (64 - drawState.V 0 % 64) →
      (exec_opcode .CHIP8 0 (0xD000 + 0 * 256 + 1 * 16 + 2) drawState waitReset).1.display
          ((drawState.V 1 % 32 + i) * 64 + (drawState.V 0 % 64 + t))
        = Bool.xor (drawState.display ((drawState.V 1 % 32 + i) * 64 + (drawState.V 0 % 64 + t)))
            (Nat.testBit (drawState.ram (drawState.I + i)) (7 - t))) ∧
    (∀ m, (∀ i t, i < min 2 (32 - drawState.V 1 % 32) → t < min 8 (64 - drawState.V 0 % 64) →
        m ≠ (drawState.V 1 % 32 + i) * 64 + (drawState.V 0 % 64 + t)) →
      (exec_opcode .CHIP8 0 (0xD000 + 0 * 256 + 1 * 16 + 2) drawState waitReset).1.display m
        = drawState.display m) ∧
    ((∃ i, i < min 2 (32 - drawState.V 1 % 32) ∧ ∃ t, t < min 8 (64 - drawState.V 0 % 64) ∧
        Nat.testBit (drawState.ram (drawState.I + i)) (7 - t) = true ∧
        drawState.display ((drawState.V 1 % 32 + i) * 64 + (drawState.V 0 % 64 + t)) = true) →
      (exec_opcode .CHIP8 0 (0xD000 + 0 * 256 + 1 * 16 + 2) drawState waitReset).1.V 15 = 1) ∧
    ((¬ ∃ i, i < min 2 (32 - drawState.V 1 % 32) ∧ ∃ t, t < min 8 (64 - drawState.V 0 % 64) ∧
        Nat.testBit (drawState.ram (drawState.I + i)) (7 - t) = true ∧
        drawState.display ((drawState.V 1 % 32 + i) * 64 + (drawState.V 0 % 64 + t)) = true) →
      (exec_opcode .CHIP8 0 (0xD000 + 0 * 256 + 1 * 16 + 2) drawState waitReset).1.V 15 = 0) :=
  chip8_C2 .CHIP8 0 0 1 2 drawState waitReset (by decide) (by decide) (by decide)

theorem chip8_C1_witness :
    (exec_opcode .CHIP8 0 (0x8000 + 1 * 256 + 2 * 16 + 4) (regState 1 200 2 100) waitReset).1.V 1
      = (200 + 100) % 256 ∧
    (exec_opcode .CHIP8 0 (0x8000 + 1 * 256 + 2 * 16 + 4) (regState 1 200 2 100) waitReset).1.V 15
      = if 255 < 200 + 100 then 1 else 0 :=
  chip8_C1 .CHIP8 0 1 2 200 100 (regState 1 200 2 100) waitReset (by decide) (by decide)
    (by decide) (by decide) (by decide) (by decide) (by decide)

theorem chip8_C8_witness :
    ((exec_opcode .CHIP8 0 (0x8000 + 1 * 256 + 2 * 16 + 6) (regState 1 201 2 103) waitReset).1.V 15
        = 103 % 2 ∧
      (exec_opcode .CHIP8 0 (0x8000 + 1 * 256 + 2 * 16 + 6) (regState 1 201 2 103) waitReset).1.V 1
        = 103 / 2) ∧
    ((exec_opcode .SUPERCHIP 0 (0x8000 + 1 * 256 + 2 * 16 + 6) (regState 1 201 2 103)
          waitReset).1.V 15 = 201 % 2 ∧
      (exec_opcode .SUPERCHIP 0 (0x8000 + 1 * 256 + 2 * 16 + 6) (regState 1 201 2 103)
          waitReset).1.V 1 = 201 / 2) :=
  chip8_C8 .SUPERCHIP 0 1 2 201 103 (regState 1 201 2 103) waitReset (by decide) (by decide)
    (by decide) (by decide) (by decide) (by decide) (by decide) (by decide)

theorem chip8_C9_witness :
    ((exec_opcode .CHIP8 0 (0xE09E + 0 * 256) keyState waitReset).1.PC
      = if keyState.keypad 200 then u16 (keyState.PC + 2) else keyState.PC) ∧
    ((exec_opcode .CHIP8 0 (0xE0A1 + 0 * 256) keyState waitReset).1.PC
      = if keyState.keypad 200 then keyState.PC else u16 (keyState.PC + 2)) :=
  chip8_C9 .CHIP8 0 0 200 keyState waitReset (by decide) (by decide) (by decide)

theorem chip8_C10_witness :
    ((exec_opcode .CHIP8 0 (0xD000 + 1 * 256 + 2 * 16) (regState 1 60 2 30) waitReset).1.display
      = (regState 1 60 2 30).display) ∧
    ((exec_opcode .CHIP8 0 (0xD000 + 1 * 256 + 2 * 16) (regState 1 60 2 30) waitReset).1.V 15
      = 0) ∧
    ((exec_opcode .CHIP8 0 (0xD000 + 1 * 256 + 2 * 16) (regState 1 60 2 30) waitReset).1.draw
      = true) :=
  chip8_C10 .CHIP8 0 1 2 (regState 1 60 2 30) waitReset (by decide) (by decide)

end Chip8
